import Mathlib

/-!
Shallow embedding of the core of the VCriate 2D diagram editor
(`src/utils/shapes.ts`, `src/utils/drawing.ts`, `src/components/Canvas.tsx`,
`src/App.tsx`), together with theorems settling the spec claims.

Coordinates are embedded as exact rationals (the source computes over JS
numbers); a JS comparison `Math.sqrt d < k` is embedded as the equivalent
rational comparison `d < k ^ 2`, and comparisons of the form
`|sqrt a - sqrt b| < 10` are embedded by an algebraically equivalent
square-free decision procedure (`sqrtGapLtTen`), proved below to agree with
the real-number formula `|Real.sqrt a - Real.sqrt b| < 10`.
-/

/-- `Point` from `src/types.ts`: `{x, y}` world-space coordinate. -/
structure Point where
  x : ℚ
  y : ℚ
deriving DecidableEq, Repr, Inhabited

/-- The five shape kinds of `Shape['type']` in `src/types.ts`. -/
inductive ShapeType where
  | line
  | rectangle
  | circle
  | triangle
  | freehand
deriving DecidableEq, Repr

/-- `Shape` from `src/types.ts`.  The `id` (a `crypto.randomUUID()` string in
the source) is embedded as an opaque numeric identifier chosen by the caller;
the transient `selected?` render hint is omitted (no claim concerns it). -/
structure Shape where
  id : Nat
  type : ShapeType
  points : List Point
  color : String
  strokeWidth : ℚ
deriving DecidableEq, Repr

/-- `Annotation` from `src/types.ts` (the optional `shapeId` is never set by
the code and is omitted). -/
structure Annotation where
  id : Nat
  x : ℚ
  y : ℚ
  text : String
deriving DecidableEq, Repr

/-- `createShape` from `src/utils/shapes.ts`: a fresh shape with a
single-point sequence `[startPoint]`.  The source defaults `color` to
`"#3B82F6"` and `strokeWidth` to `2`; callers here pass them explicitly. -/
def createShape (idv : Nat) (type : ShapeType) (startPoint : Point)
    (color : String) (strokeWidth : ℚ) : Shape :=
  { id := idv, type := type, points := [startPoint], color := color,
    strokeWidth := strokeWidth }

/-- `updateShapePoints` from `src/utils/shapes.ts`.  For the four two-point
types the source builds `[shape.points[0], newPoint]`; `shape.points.headI`
embeds the JS indexing `shape.points[0]` (every call site keeps `points`
nonempty, where the two agree). -/
def updateShapePoints (shape : Shape) (newPoint : Point) : Shape :=
  match shape.type with
  | .line => { shape with points := [shape.points.headI, newPoint] }
  | .rectangle => { shape with points := [shape.points.headI, newPoint] }
  | .circle => { shape with points := [shape.points.headI, newPoint] }
  | .triangle => { shape with points := [shape.points.headI, newPoint] }
  | .freehand => { shape with points := shape.points ++ [newPoint] }

/-- Squared Euclidean distance; the source's
`Math.pow(a.x - b.x, 2) + Math.pow(a.y - b.y, 2)` before its `Math.sqrt`. -/
def distSq (p q : Point) : ℚ :=
  (p.x - q.x) ^ 2 + (p.y - q.y) ^ 2

/-- `distanceToLine` from `src/utils/shapes.ts`, with the final `Math.sqrt`
dropped: this returns the squared clamped distance to the segment (the source
returns its square root and only ever compares it with `10`). -/
def distanceToLineSq (point lineStart lineEnd : Point) : ℚ :=
  let A := point.x - lineStart.x
  let B := point.y - lineStart.y
  let C := lineEnd.x - lineStart.x
  let D := lineEnd.y - lineStart.y
  let dot := A * C + B * D
  let lenSq := C * C + D * D
  if lenSq = 0 then A * A + B * B
  else
    let param := max 0 (min 1 (dot / lenSq))
    let xx := lineStart.x + param * C
    let yy := lineStart.y + param * D
    (point.x - xx) ^ 2 + (point.y - yy) ^ 2

/-- Decides `x < 20 * Real.sqrt b` for rationals with `0 ≤ b`
(square-free form; equivalence proved in `ltTwentySqrt_iff`). -/
def ltTwentySqrt (x b : ℚ) : Bool :=
  decide (x < 0) || decide (x ^ 2 < 400 * b)

/-- Decides `|Real.sqrt a - Real.sqrt b| < 10` for rationals with
`0 ≤ a`, `0 ≤ b`: the circle branch of `isPointInShape` compares
`Math.abs(distanceFromCenter - radius) < 10` where both operands are square
roots.  Equivalence proved in `sqrtGapLtTen_iff`. -/
def sqrtGapLtTen (a b : ℚ) : Bool :=
  ltTwentySqrt (a - b - 100) b && ltTwentySqrt (b - a - 100) a

/-- `isPointInTriangle` from `src/utils/shapes.ts` (barycentric sign test).
The source divides by `denom` unconditionally; under IEEE-754, when
`denom = 0` each weight is `NaN` (numerator `0`) or `±Infinity`, and the test
`a >= 0 && b >= 0 && c >= 0` is then always false: any `NaN` comparison is
false, a `-Infinity` weight fails directly, and if `a = b = +Infinity` then
`c = 1 - a - b = -Infinity` fails.  The embedding folds that exhaustive case
analysis into an explicit `denom = 0` branch returning `false`. -/
def isPointInTriangle (point v1 v2 v3 : Point) : Bool :=
  let denom := (v2.y - v3.y) * (v1.x - v3.x) + (v3.x - v2.x) * (v1.y - v3.y)
  if denom = 0 then false
  else
    let a := ((v2.y - v3.y) * (point.x - v3.x) + (v3.x - v2.x) * (point.y - v3.y)) / denom
    let b := ((v3.y - v1.y) * (point.x - v3.x) + (v1.x - v3.x) * (point.y - v3.y)) / denom
    let c := 1 - a - b
    decide (0 ≤ a) && decide (0 ≤ b) && decide (0 ≤ c)

/-- The barycentric denominator obtained from the triangle vertices that
`isPointInShape` derives from the two stored points. -/
def triangleDenom (s e : Point) : ℚ :=
  let width := e.x - s.x
  let height := e.y - s.y
  let v1 : Point := ⟨s.x + width / 2, s.y⟩
  let v2 : Point := ⟨s.x, s.y + height⟩
  let v3 : Point := ⟨e.x, s.y + height⟩
  (v2.y - v3.y) * (v1.x - v3.x) + (v3.x - v2.x) * (v1.y - v3.y)

/-- `isPointInShape` from `src/utils/shapes.ts`.  Each `points.length < 2`
guard of the source is the wildcard branch of the match; each
`Math.sqrt d < 10` comparison is embedded as `d < 100`. -/
def isPointInShape (point : Point) (shape : Shape) : Bool :=
  match shape.type with
  | .line =>
    match shape.points with
    | start :: en :: _ => decide (distanceToLineSq point start en < 100)
    | _ => false
  | .rectangle =>
    match shape.points with
    | topLeft :: bottomRight :: _ =>
      decide (min topLeft.x bottomRight.x ≤ point.x) &&
      decide (point.x ≤ max topLeft.x bottomRight.x) &&
      decide (min topLeft.y bottomRight.y ≤ point.y) &&
      decide (point.y ≤ max topLeft.y bottomRight.y)
    | _ => false
  | .circle =>
    match shape.points with
    | center :: edge :: _ => sqrtGapLtTen (distSq point center) (distSq edge center)
    | _ => false
  | .triangle =>
    match shape.points with
    | start :: en :: _ =>
      let width := en.x - start.x
      let height := en.y - start.y
      let v1 : Point := ⟨start.x + width / 2, start.y⟩
      let v2 : Point := ⟨start.x, start.y + height⟩
      let v3 : Point := ⟨en.x, start.y + height⟩
      isPointInTriangle point v1 v2 v3
    | _ => false
  | .freehand =>
    shape.points.any fun p => decide (distSq point p < 100)

/-- Iterated `updateShapePoints`, one call per pointer-move of a gesture. -/
def applyUpdates (s : Shape) (qs : List Point) : Shape :=
  qs.foldl updateShapePoints s

/-- The authoritative state held by `App` in `src/App.tsx`: shape collection,
annotations, selection, zoom/offset, and the history snapshots with the
current index. -/
structure AppState where
  shapes : List Shape
  annotations : List Annotation
  selectedShapeId : Option Nat
  zoom : ℚ
  offset : Point
  history : List (List Shape)
  historyIndex : Nat
deriving DecidableEq, Repr

/-- The initial `useState` values of `App`: no shapes, no annotations, no
selection, zoom `1`, offset `(100, 100)`, history `[[]]`, index `0`. -/
def initialState : AppState :=
  { shapes := [], annotations := [], selectedShapeId := none, zoom := 1,
    offset := ⟨100, 100⟩, history := [[]], historyIndex := 0 }

/-- `updateHistory` from `src/App.tsx`: truncate the history to
`[0..historyIndex]`, append a copy of the new shape set, and point the index
at the appended entry. -/
def updateHistory (st : AppState) (newShapes : List Shape) : AppState :=
  let newHistory := st.history.take (st.historyIndex + 1) ++ [newShapes]
  { st with history := newHistory, historyIndex := newHistory.length - 1 }

/-- `handleShapesChange` from `src/App.tsx`: install the new shape set and
commit it to history. -/
def handleShapesChange (st : AppState) (newShapes : List Shape) : AppState :=
  updateHistory { st with shapes := newShapes } newShapes

/-- `handleUndo` from `src/App.tsx`: no-op at index `0`, otherwise step the
index back and restore that snapshot as the shape collection.  `getD` embeds
the JS array indexing `history[historyIndex - 1]` (in bounds whenever the
history invariant `historyIndex < history.length` holds). -/
def handleUndo (st : AppState) : AppState :=
  if 0 < st.historyIndex then
    { st with historyIndex := st.historyIndex - 1,
              shapes := st.history.getD (st.historyIndex - 1) [] }
  else st

/-- `handleRedo` from `src/App.tsx`: no-op at the last index, otherwise step
the index forward and restore that snapshot.  The JS guard
`historyIndex < history.length - 1` is written `historyIndex + 1 < length`,
which agrees with it for every `length` (including `0`, where both fail). -/
def handleRedo (st : AppState) : AppState :=
  if st.historyIndex + 1 < st.history.length then
    { st with historyIndex := st.historyIndex + 1,
              shapes := st.history.getD (st.historyIndex + 1) [] }
  else st

/-- The `canUndo` prop computed in `src/App.tsx`: `historyIndex > 0`. -/
def canUndo (st : AppState) : Bool :=
  decide (0 < st.historyIndex)

/-- The `canRedo` prop computed in `src/App.tsx`:
`historyIndex < history.length - 1`. -/
def canRedo (st : AppState) : Bool :=
  decide (st.historyIndex + 1 < st.history.length)

/-- `handleClear` from `src/App.tsx`: empty the shape collection, drop all
annotations and the selection, and commit (only) the empty shape set. -/
def handleClear (st : AppState) : AppState :=
  updateHistory
    { st with shapes := [], annotations := [], selectedShapeId := none } []

/-- `handleZoomIn` from `src/App.tsx`: `Math.min(prev * 1.2, 3)`. -/
def handleZoomIn (z : ℚ) : ℚ :=
  min (z * 1.2) 3

/-- `handleZoomOut` from `src/App.tsx`: `Math.max(prev / 1.2, 0.1)`. -/
def handleZoomOut (z : ℚ) : ℚ :=
  max (z / 1.2) 0.1

/-- A sequence of zoom commands applied in order (`true` = zoom-in button,
`false` = zoom-out button). -/
def applyZooms (cmds : List Bool) (z : ℚ) : ℚ :=
  cmds.foldl (fun acc c => if c then handleZoomIn acc else handleZoomOut acc) z

/-- `getCanvasCoordinates` from `src/utils/drawing.ts`: screen-to-world,
`world = (screen - offset) / zoom`, where `screen` is the pointer position
relative to the canvas's top-left corner (`clientX - rect.left`). -/
def getCanvasCoordinates (screen : Point) (zoom : ℚ) (offset : Point) : Point :=
  ⟨(screen.x - offset.x) / zoom, (screen.y - offset.y) / zoom⟩

/-- The world-to-screen transform applied by `drawShape` in
`src/utils/drawing.ts` via `ctx.translate(offset.x, offset.y)` followed by
`ctx.scale(zoom, zoom)`: `screen = world * zoom + offset`. -/
def toScreen (world : Point) (zoom : ℚ) (offset : Point) : Point :=
  ⟨world.x * zoom + offset.x, world.y * zoom + offset.y⟩

/-- The per-move shape update of the drag branch of `handleMouseMove` in
`src/components/Canvas.tsx`: translate every point of the selected shape by
the world-space delta, leave every other shape untouched. -/
def moveSelectedShape (shapes : List Shape) (selId : Nat) (delta : Point) :
    List Shape :=
  shapes.map fun s =>
    if s.id = selId then
      { s with points := s.points.map fun p => ⟨p.x + delta.x, p.y + delta.y⟩ }
    else s

/-- One pointer-move event while dragging a selection
(`src/components/Canvas.tsx`, `handleMouseMove`): compute the delta from the
tracked drag-start, update the shapes, hand them to `onShapesChange` (which
is `handleShapesChange`, hence a history commit), and re-anchor the
drag-start at the current point.  Returns the new app state and drag-start. -/
def dragMoveEvent (st : AppState) (selId : Nat) (dragStart point : Point) :
    AppState × Point :=
  let delta : Point := ⟨point.x - dragStart.x, point.y - dragStart.y⟩
  (handleShapesChange st (moveSelectedShape st.shapes selId delta), point)

/-- A whole drag gesture on the selected shape: pointer-down at `downPoint`
(which set `dragStart`), one `dragMoveEvent` per entry of `moves`, then
pointer-up (`handleMouseUp` only resets the local drag flags — it performs no
shape or history change for a drag). -/
def dragGesture (st : AppState) (selId : Nat) (downPoint : Point)
    (moves : List Point) : AppState :=
  (moves.foldl (fun acc pt => dragMoveEvent acc.1 selId acc.2 pt)
    (st, downPoint)).1

/-! ## Helper lemmas -/

lemma updateShapePoints_type (s : Shape) (q : Point) :
    (updateShapePoints s q).type = s.type := by
  unfold updateShapePoints
  split <;> rfl

lemma updateShapePoints_nonfreehand (s : Shape) (q : Point)
    (h : s.type ≠ .freehand) :
    updateShapePoints s q = { s with points := [s.points.headI, q] } := by
  rcases s with ⟨idv, t, pts, col, sw⟩
  cases t <;> first | rfl | exact absurd rfl h

lemma updateShapePoints_freehand (s : Shape) (q : Point)
    (h : s.type = .freehand) :
    updateShapePoints s q = { s with points := s.points ++ [q] } := by
  rcases s with ⟨idv, t, pts, col, sw⟩
  cases t <;> first | rfl | simp at h

lemma applyUpdates_cons (s : Shape) (q : Point) (qs : List Point) :
    applyUpdates s (q :: qs) = applyUpdates (updateShapePoints s q) qs := rfl

lemma applyUpdates_nonfreehand_inv (qs : List Point) (s : Shape)
    (h : s.type ≠ .freehand) :
    (applyUpdates s qs).type = s.type ∧
    (applyUpdates s qs).points.headI = s.points.headI := by
  induction qs generalizing s with
  | nil => exact ⟨rfl, rfl⟩
  | cons q qs ih =>
    have htype : (updateShapePoints s q).type = s.type := updateShapePoints_type s q
    have h2 : (updateShapePoints s q).type ≠ .freehand := by
      rw [htype]; exact h
    obtain ⟨ih1, ih2⟩ := ih (updateShapePoints s q) h2
    rw [applyUpdates_cons]
    refine ⟨ih1.trans htype, ih2.trans ?_⟩
    rw [updateShapePoints_nonfreehand s q h]
    rfl

lemma applyUpdates_freehand (qs : List Point) (s : Shape)
    (h : s.type = .freehand) :
    (applyUpdates s qs).points = s.points ++ qs := by
  induction qs generalizing s with
  | nil => simp [applyUpdates]
  | cons q qs ih =>
    have htype : (updateShapePoints s q).type = .freehand :=
      (updateShapePoints_type s q).trans h
    rw [applyUpdates_cons, ih (updateShapePoints s q) htype,
      updateShapePoints_freehand s q h]
    simp

/-! ## Claim theorems -/

/-- The C1 scenario states: fresh start, `commit(A)`, `commit(B)`, three
`undo`s, one `redo`, then `commit(C)`. -/
def histA (A : List Shape) : AppState :=
  handleShapesChange initialState A

/-- Second commit of the C1 scenario. -/
def histAB (A B : List Shape) : AppState :=
  handleShapesChange (histA A) B

/-- First undo of the C1 scenario. -/
def histU1 (A B : List Shape) : AppState :=
  handleUndo (histAB A B)

/-- Second undo of the C1 scenario. -/
def histU2 (A B : List Shape) : AppState :=
  handleUndo (histU1 A B)

/-- Third (boundary) undo of the C1 scenario. -/
def histU3 (A B : List Shape) : AppState :=
  handleUndo (histU2 A B)

/-- Redo of the C1 scenario. -/
def histR1 (A B : List Shape) : AppState :=
  handleRedo (histU3 A B)

/-- Final commit of the C1 scenario, issued after undoing back to `A`. -/
def histC (A B C : List Shape) : AppState :=
  handleShapesChange (histR1 A B) C

lemma histA_eq (A : List Shape) :
    histA A = ⟨A, [], none, 1, ⟨100, 100⟩, [[], A], 1⟩ := rfl

lemma histAB_eq (A B : List Shape) :
    histAB A B = ⟨B, [], none, 1, ⟨100, 100⟩, [[], A, B], 2⟩ := by
  rw [histAB, histA_eq]
  rfl

lemma histU1_eq (A B : List Shape) :
    histU1 A B = ⟨A, [], none, 1, ⟨100, 100⟩, [[], A, B], 1⟩ := by
  rw [histU1, histAB_eq]
  rfl

lemma histU2_eq (A B : List Shape) :
    histU2 A B = ⟨[], [], none, 1, ⟨100, 100⟩, [[], A, B], 0⟩ := by
  rw [histU2, histU1_eq]
  rfl

lemma histU3_eq (A B : List Shape) :
    histU3 A B = ⟨[], [], none, 1, ⟨100, 100⟩, [[], A, B], 0⟩ := by
  rw [histU3, histU2_eq]
  rfl

lemma histR1_eq (A B : List Shape) :
    histR1 A B = ⟨A, [], none, 1, ⟨100, 100⟩, [[], A, B], 1⟩ := by
  rw [histR1, histU3_eq]
  rfl

lemma histC_eq (A B C : List Shape) :
    histC A B C = ⟨C, [], none, 1, ⟨100, 100⟩, [[], A, C], 2⟩ := by
  rw [histC, histR1_eq]
  rfl

/-- C1: The edit history behaves as a linear snapshot stack.  Starting from
the initial state (one empty snapshot, index 0): `commit(A)`, `commit(B)`,
then `undo` yields `A`, `undo` again yields the empty set, a further `undo`
is a no-op, `redo` yields `A`, and `commit(C)` discards `B` and leaves
`canRedo` false, so a further `redo` is a no-op — for all shape sets
`A`, `B`, `C`. -/
theorem history_linear_stack_scenario (A B C : List Shape) :
    (histA A).history = [[], A] ∧ (histA A).historyIndex = 1 ∧
    (histAB A B).history = [[], A, B] ∧ (histAB A B).historyIndex = 2 ∧
    (histU1 A B).shapes = A ∧ (histU1 A B).historyIndex = 1 ∧
    (histU2 A B).shapes = [] ∧ (histU2 A B).historyIndex = 0 ∧
    histU3 A B = histU2 A B ∧
    (histR1 A B).shapes = A ∧ (histR1 A B).historyIndex = 1 ∧
    (histC A B C).history = [[], A, C] ∧ (histC A B C).historyIndex = 2 ∧
    (histC A B C).shapes = C ∧
    canRedo (histC A B C) = false ∧ handleRedo (histC A B C) = histC A B C := by
  rw [histA_eq, histAB_eq, histU1_eq, histU2_eq, histU3_eq, histR1_eq,
    histC_eq]
  refine ⟨rfl, rfl, rfl, rfl, rfl, rfl, rfl, rfl, rfl, rfl, rfl, rfl, rfl,
    rfl, rfl, rfl⟩

/-- C3: for line/rectangle/circle/triangle shapes created with anchor `p0`,
any nonempty sequence of `updateShapePoints` calls yields exactly the points
`[p0, q]` where `q` is the last argument; and composing two updates equals
the last update alone (last point wins). -/
theorem updateWithPoint_last_wins (t : ShapeType) (ht : t ≠ .freehand)
    (idv : Nat) (col : String) (sw : ℚ) (p0 : Point) (qs : List Point)
    (q : Point) (s : Shape) (hs : s.type ≠ .freehand) (p p2 : Point) :
    (applyUpdates (createShape idv t p0 col sw) (qs ++ [q])).points = [p0, q] ∧
    updateShapePoints (updateShapePoints s p) p2 = updateShapePoints s p2 := by
  constructor
  · have hfold : applyUpdates (createShape idv t p0 col sw) (qs ++ [q]) =
        updateShapePoints (applyUpdates (createShape idv t p0 col sw) qs) q := by
      unfold applyUpdates
      rw [List.foldl_append]
      rfl
    have hc : (createShape idv t p0 col sw).type ≠ .freehand := ht
    obtain ⟨h1, h2⟩ := applyUpdates_nonfreehand_inv qs (createShape idv t p0 col sw) hc
    have h3 : (applyUpdates (createShape idv t p0 col sw) qs).type ≠ .freehand := by
      rw [h1]; exact ht
    rw [hfold, updateShapePoints_nonfreehand _ q h3]
    show [(applyUpdates (createShape idv t p0 col sw) qs).points.headI, q] =
      [p0, q]
    rw [h2]
    rfl
  · have h1 : ({ s with points := [s.points.headI, p] } : Shape).type ≠
        .freehand := hs
    rw [updateShapePoints_nonfreehand s p hs,
      updateShapePoints_nonfreehand _ p2 h1,
      updateShapePoints_nonfreehand s p2 hs]
    rfl

/-- Witness for C3 at concrete inputs. -/
theorem updateWithPoint_last_wins_witness :
    (applyUpdates (createShape 0 .line ⟨0, 0⟩ "#3B82F6" 2)
      ([⟨1, 1⟩, ⟨5, 2⟩] ++ [⟨2, 3⟩])).points = [⟨0, 0⟩, ⟨2, 3⟩] ∧
    updateShapePoints
        (updateShapePoints (createShape 7 .circle ⟨4, 4⟩ "#3B82F6" 2) ⟨1, 1⟩)
        ⟨2, 2⟩ =
      updateShapePoints (createShape 7 .circle ⟨4, 4⟩ "#3B82F6" 2) ⟨2, 2⟩ :=
  updateWithPoint_last_wins .line (by decide) 0 "#3B82F6" 2 ⟨0, 0⟩
    [⟨1, 1⟩, ⟨5, 2⟩] ⟨2, 3⟩ (createShape 7 .circle ⟨4, 4⟩ "#3B82F6" 2)
    (by decide) ⟨1, 1⟩ ⟨2, 2⟩

/-- C4: `updateShapePoints` on a freehand shape appends the new point and
never removes or reorders points; on a freshly created freehand shape the
point sequence after `N` calls is the anchor followed by all `N` arguments in
order, hence has length `N + 1`. -/
theorem freehand_append (idv : Nat) (col : String) (sw : ℚ) (p0 : Point)
    (qs : List Point) (s : Shape) (hs : s.type = .freehand) (q : Point) :
    (updateShapePoints s q).points = s.points ++ [q] ∧
    (applyUpdates (createShape idv .freehand p0 col sw) qs).points = p0 :: qs ∧
    (applyUpdates (createShape idv .freehand p0 col sw) qs).points.length =
      qs.length + 1 := by
  have h2 : (applyUpdates (createShape idv .freehand p0 col sw) qs).points =
      p0 :: qs := by
    rw [applyUpdates_freehand qs _ rfl]
    rfl
  refine ⟨?_, h2, by rw [h2]; rfl⟩
  rw [updateShapePoints_freehand s q hs]

/-- Witness for C4 at concrete inputs. -/
theorem freehand_append_witness :
    (updateShapePoints (createShape 3 .freehand ⟨1, 2⟩ "#3B82F6" 2)
      ⟨4, 5⟩).points = [⟨1, 2⟩] ++ [⟨4, 5⟩] ∧
    (applyUpdates (createShape 0 .freehand ⟨0, 0⟩ "#3B82F6" 2)
      [⟨1, 0⟩, ⟨2, 0⟩, ⟨3, 0⟩]).points = ⟨0, 0⟩ :: [⟨1, 0⟩, ⟨2, 0⟩, ⟨3, 0⟩] ∧
    (applyUpdates (createShape 0 .freehand ⟨0, 0⟩ "#3B82F6" 2)
      [⟨1, 0⟩, ⟨2, 0⟩, ⟨3, 0⟩]).points.length = 3 + 1 :=
  freehand_append 0 "#3B82F6" 2 ⟨0, 0⟩ [⟨1, 0⟩, ⟨2, 0⟩, ⟨3, 0⟩]
    (createShape 3 .freehand ⟨1, 2⟩ "#3B82F6" 2) rfl ⟨4, 5⟩

/-- A concrete selected shape for exercising the drag gesture. -/
def dragShapeA : Shape :=
  { id := 0, type := .line, points := [⟨0, 0⟩, ⟨1, 1⟩], color := "#3B82F6",
    strokeWidth := 2 }

/-- A concrete unselected shape for exercising the drag gesture. -/
def dragShapeB : Shape :=
  { id := 1, type := .rectangle, points := [⟨5, 5⟩, ⟨9, 8⟩],
    color := "#EF4444", strokeWidth := 2 }

/-- App state right after pointer-down selects `dragShapeA`: both shapes
present and already committed once. -/
def dragState0 : AppState :=
  { shapes := [dragShapeA, dragShapeB], annotations := [],
    selectedShapeId := some 0, zoom := 1, offset := ⟨100, 100⟩,
    history := [[], [dragShapeA, dragShapeB]], historyIndex := 1 }

/-- C2 (evaluation of the code at the failing input): a drag gesture with two
pointer-move events of cumulative world delta `(3, 2)` does translate every
point of the selected shape by exactly `(3, 2)` and leaves the other shape
untouched, but it appends TWO history entries — one per move event — not the
single entry the claim requires (`handleMouseMove` calls `onShapesChange`,
i.e. `handleShapesChange` and hence `updateHistory`, on every move). -/
theorem drag_commits_one_entry_per_move :
    (dragGesture dragState0 0 ⟨0, 0⟩ [⟨1, 0⟩, ⟨3, 2⟩]).shapes =
      [{ dragShapeA with points := [⟨3, 2⟩, ⟨4, 3⟩] }, dragShapeB] ∧
    (dragGesture dragState0 0 ⟨0, 0⟩ [⟨1, 0⟩, ⟨3, 2⟩]).history.length =
      dragState0.history.length + 2 ∧
    ¬ (dragGesture dragState0 0 ⟨0, 0⟩ [⟨1, 0⟩, ⟨3, 2⟩]).history.length =
      dragState0.history.length + 1 := by
  refine ⟨?_, ?_, ?_⟩ <;>
    norm_num [dragGesture, dragMoveEvent, moveSelectedShape,
      handleShapesChange, updateHistory, dragState0, dragShapeA, dragShapeB,
      List.foldl_cons, List.foldl_nil]

lemma distSq_nonneg (p q : Point) : 0 ≤ distSq p q := by
  unfold distSq
  positivity

lemma lt_twentySqrt_iff (x b : ℝ) (hb : 0 ≤ b) :
    x < 20 * Real.sqrt b ↔ x < 0 ∨ x ^ 2 < 400 * b := by
  constructor
  · intro hlt
    rcases lt_or_le x 0 with hx | hx
    · exact Or.inl hx
    · refine Or.inr ?_
      have h1 : x ^ 2 < (20 * Real.sqrt b) ^ 2 := pow_lt_pow_left₀ hlt hx (by norm_num)
      have h2 : (20 * Real.sqrt b) ^ 2 = 400 * b := by
        rw [mul_pow, Real.sq_sqrt hb]
        norm_num
      rw [h2] at h1
      exact h1
  · intro h
    rcases h with hx | hx
    · exact hx.trans_le (by positivity)
    · rcases lt_or_le x 0 with hxneg | hxpos
      · exact hxneg.trans_le (by positivity)
      · have h2 : (20 * Real.sqrt b) ^ 2 = 400 * b := by
          rw [mul_pow, Real.sq_sqrt hb]
          norm_num
        refine lt_of_pow_lt_pow_left₀ 2 (by positivity) ?_
        rw [h2]
        exact hx

lemma sqrt_sub_lt_ten_iff (a b : ℝ) (ha : 0 ≤ a) (hb : 0 ≤ b) :
    Real.sqrt a - Real.sqrt b < 10 ↔ a - b - 100 < 20 * Real.sqrt b := by
  have hpos : (0 : ℝ) < Real.sqrt b + 10 := by positivity
  have hsq : (Real.sqrt b + 10) ^ 2 = b + 20 * Real.sqrt b + 100 := by
    have hb2 : Real.sqrt b ^ 2 = b := Real.sq_sqrt hb
    nlinarith [hb2]
  constructor
  · intro h
    have h1 : Real.sqrt a < Real.sqrt b + 10 := by linarith
    have h2 : a < (Real.sqrt b + 10) ^ 2 := (Real.sqrt_lt' hpos).mp h1
    rw [hsq] at h2
    linarith
  · intro h
    have h2 : a < (Real.sqrt b + 10) ^ 2 := by
      rw [hsq]
      linarith
    have h1 : Real.sqrt a < Real.sqrt b + 10 := (Real.sqrt_lt' hpos).mpr h2
    linarith

lemma ltTwentySqrt_iff (x b : ℚ) (hb : 0 ≤ b) :
    ltTwentySqrt x b = true ↔ (x : ℝ) < 20 * Real.sqrt (b : ℝ) := by
  have hbR : (0 : ℝ) ≤ (b : ℝ) := by exact_mod_cast hb
  rw [lt_twentySqrt_iff (x : ℝ) (b : ℝ) hbR]
  simp only [ltTwentySqrt, Bool.or_eq_true, decide_eq_true_eq]
  constructor
  · rintro (h | h)
    · exact Or.inl (by exact_mod_cast h)
    · exact Or.inr (by exact_mod_cast h)
  · rintro (h | h)
    · exact Or.inl (by exact_mod_cast h)
    · exact Or.inr (by exact_mod_cast h)

lemma sqrtGapLtTen_iff (a b : ℚ) (ha : 0 ≤ a) (hb : 0 ≤ b) :
    sqrtGapLtTen a b = true ↔
      |Real.sqrt (a : ℝ) - Real.sqrt (b : ℝ)| < 10 := by
  have haR : (0 : ℝ) ≤ (a : ℝ) := by exact_mod_cast ha
  have hbR : (0 : ℝ) ≤ (b : ℝ) := by exact_mod_cast hb
  rw [abs_sub_lt_iff]
  simp only [sqrtGapLtTen, Bool.and_eq_true]
  rw [ltTwentySqrt_iff _ b hb, ltTwentySqrt_iff _ a ha,
    show ((10 : ℝ) = 10) from rfl]
  rw [sqrt_sub_lt_ten_iff (a : ℝ) (b : ℝ) haR hbR,
    sqrt_sub_lt_ten_iff (b : ℝ) (a : ℝ) hbR haR]
  push_cast
  tauto

/-- The circle of the C5 concrete instances: center `(0,0)`, edge point
`(10,0)`, radius `10`. -/
def circleDemo : Shape :=
  { id := 0, type := .circle, points := [⟨0, 0⟩, ⟨10, 0⟩],
    color := "#3B82F6", strokeWidth := 2 }

/-- C5: the circle hit test is a ring test, not a filled-disk test: for a
circle with stored points `[center, edge]` and radius
`distance(center, edge)`, `isPointInShape` holds iff
`|distance(point, center) - radius| < 10`; in particular for center `(0,0)`
and edge `(10,0)` the point `(10,0)` is contained while `(0,0)` (the center)
and `(20,0)` are not. -/
theorem circle_ring_hit_test (idv : Nat) (col : String) (sw : ℚ)
    (c e p : Point) :
    (isPointInShape p
        { id := idv, type := .circle, points := [c, e], color := col,
          strokeWidth := sw } = true ↔
      |Real.sqrt ((distSq p c : ℚ) : ℝ) -
        Real.sqrt ((distSq e c : ℚ) : ℝ)| < 10) ∧
    isPointInShape ⟨10, 0⟩ circleDemo = true ∧
    isPointInShape ⟨0, 0⟩ circleDemo = false ∧
    isPointInShape ⟨20, 0⟩ circleDemo = false := by
  refine ⟨?_, by norm_num [circleDemo, isPointInShape, sqrtGapLtTen,
    ltTwentySqrt, distSq], by norm_num [circleDemo, isPointInShape,
    sqrtGapLtTen, ltTwentySqrt, distSq], by norm_num [circleDemo,
    isPointInShape, sqrtGapLtTen, ltTwentySqrt, distSq]⟩
  have hdef : isPointInShape p
      { id := idv, type := .circle, points := [c, e], color := col,
        strokeWidth := sw } = sqrtGapLtTen (distSq p c) (distSq e c) := rfl
  rw [hdef, sqrtGapLtTen_iff _ _ (distSq_nonneg p c) (distSq_nonneg e c)]

/-- C6: a triangle whose derived vertices are degenerate (zero barycentric
denominator, e.g. whenever the two stored points share a `y` coordinate)
contains no query point: the hit test returns `false` rather than dividing
by zero. -/
theorem degenerate_triangle_never_contains (idv : Nat) (col : String) (sw : ℚ)
    (st en p : Point) (h : triangleDenom st en = 0) :
    isPointInShape p
      { id := idv, type := .triangle, points := [st, en], color := col,
        strokeWidth := sw } = false := by
  simp only [isPointInShape, isPointInTriangle]
  split
  · rfl
  · next hne => exact absurd h hne

/-- Witness for C6: the collinear triangle drawn from `(0,0)` to `(5,0)`
(zero height) contains neither `(1, 0)` nor anything else. -/
theorem degenerate_triangle_never_contains_witness :
    triangleDenom ⟨0, 0⟩ ⟨5, 0⟩ = 0 ∧
    isPointInShape ⟨1, 0⟩
      { id := 2, type := .triangle, points := [⟨0, 0⟩, ⟨5, 0⟩],
        color := "#3B82F6", strokeWidth := 2 } = false :=
  ⟨by norm_num [triangleDenom],
   degenerate_triangle_never_contains 2 "#3B82F6" 2 ⟨0, 0⟩ ⟨5, 0⟩ ⟨1, 0⟩
     (by norm_num [triangleDenom])⟩

/-- C7: a shape carrying fewer points than its type requires is never hit:
for the four two-point types any query point tests `false` when fewer than
two points are stored, and a freehand shape with an empty point sequence
tests `false` as well; the hit test is a total function (it never throws). -/
theorem malformed_shape_never_hit (s : Shape) (p : Point) :
    (s.type ≠ .freehand → s.points.length < 2 → isPointInShape p s = false) ∧
    (s.points = [] → isPointInShape p s = false) := by
  rcases s with ⟨idv, t, pts, col, sw⟩
  constructor
  · intro ht hlen
    cases t
    case freehand => exact absurd rfl ht
    all_goals
      rcases pts with _ | ⟨a, _ | ⟨b, rest⟩⟩
    all_goals
      first
      | rfl
      | (simp only [List.length_cons] at hlen; omega)
  · intro hnil
    subst hnil
    cases t <;> rfl

/-- Witness for C7: a one-point line and an empty freehand stroke are both
unhittable. -/
theorem malformed_shape_never_hit_witness :
    isPointInShape ⟨0, 0⟩
      { id := 0, type := ShapeType.line, points := [⟨5, 5⟩],
        color := "#3B82F6", strokeWidth := 2 } = false ∧
    isPointInShape ⟨7, 7⟩
      { id := 1, type := ShapeType.freehand, points := [],
        color := "#3B82F6", strokeWidth := 2 } = false :=
  ⟨(malformed_shape_never_hit
      { id := 0, type := ShapeType.line, points := [⟨5, 5⟩],
        color := "#3B82F6", strokeWidth := 2 } ⟨0, 0⟩).1 (by decide) (by decide),
   (malformed_shape_never_hit
      { id := 1, type := ShapeType.freehand, points := [],
        color := "#3B82F6", strokeWidth := 2 } ⟨7, 7⟩).2 rfl⟩

/-- C8: the screen-to-world transform of `getCanvasCoordinates` is the exact
inverse (over exact arithmetic) of the world-to-screen transform applied by
the renderer, for every point, every offset, and every zoom in
`[0.1, 3.0]`. -/
theorem toWorld_inverse_of_toScreen (p offset : Point) (zoom : ℚ)
    (h1 : 1 / 10 ≤ zoom) (h2 : zoom ≤ 3) :
    getCanvasCoordinates (toScreen p zoom offset) zoom offset = p := by
  have hz : zoom ≠ 0 := by
    intro h
    rw [h] at h1
    norm_num at h1
  rcases p with ⟨px, py⟩
  rcases offset with ⟨ox, oy⟩
  simp only [getCanvasCoordinates, toScreen, Point.mk.injEq]
  constructor <;> field_simp

/-- Witness for C8 at zoom `1/2`, offset `(100, 100)`, point `(3, 4)`. -/
theorem toWorld_inverse_of_toScreen_witness :
    (1 / 10 : ℚ) ≤ 1 / 2 ∧ (1 / 2 : ℚ) ≤ 3 ∧
    getCanvasCoordinates (toScreen ⟨3, 4⟩ (1 / 2) ⟨100, 100⟩) (1 / 2)
      ⟨100, 100⟩ = ⟨3, 4⟩ :=
  ⟨by norm_num, by norm_num,
   toWorld_inverse_of_toScreen ⟨3, 4⟩ ⟨100, 100⟩ (1 / 2) (by norm_num)
     (by norm_num)⟩

lemma zoomIn_mem (z : ℚ) (h1 : 1 / 10 ≤ z) (h2 : z ≤ 3) :
    1 / 10 ≤ handleZoomIn z ∧ handleZoomIn z ≤ 3 := by
  unfold handleZoomIn
  constructor
  · refine le_min ?_ (by norm_num)
    nlinarith
  · exact min_le_right _ _

lemma zoomOut_mem (z : ℚ) (h1 : 1 / 10 ≤ z) (h2 : z ≤ 3) :
    1 / 10 ≤ handleZoomOut z ∧ handleZoomOut z ≤ 3 := by
  unfold handleZoomOut
  constructor
  · exact le_trans (by norm_num) (le_max_right _ _)
  · refine max_le ?_ (by norm_num)
    rw [div_le_iff₀ (by norm_num : (0 : ℚ) < 1.2)]
    nlinarith

lemma applyZooms_mem (cmds : List Bool) (z : ℚ) (h1 : 1 / 10 ≤ z)
    (h2 : z ≤ 3) :
    1 / 10 ≤ applyZooms cmds z ∧ applyZooms cmds z ≤ 3 := by
  induction cmds generalizing z with
  | nil => exact ⟨h1, h2⟩
  | cons c cs ih =>
    cases c
    · exact ih (handleZoomOut z) (zoomOut_mem z h1 h2).1 (zoomOut_mem z h1 h2).2
    · exact ih (handleZoomIn z) (zoomIn_mem z h1 h2).1 (zoomIn_mem z h1 h2).2

/-- C9: starting from the initial zoom factor `1`, after any sequence of
zoom-in (`* 1.2`, capped at `3`) and zoom-out (`/ 1.2`, floored at `0.1`)
commands, the zoom factor remains within `[0.1, 3.0]`. -/
theorem zoom_always_clamped (cmds : List Bool) :
    1 / 10 ≤ applyZooms cmds 1 ∧ applyZooms cmds 1 ≤ 3 :=
  applyZooms_mem cmds 1 (by norm_num) (by norm_num)

/-- C10: `handleClear` empties the shape collection, the annotations and the
selection but commits only the empty shape set; an immediately following
`handleUndo` therefore restores the previous shapes while the annotations
and the selection stay cleared.  Hypotheses: the App history invariant (the
index is in bounds and the current snapshot is the current shape set). -/
theorem clear_undo_restores_only_shapes (st : AppState)
    (hidx : st.historyIndex < st.history.length)
    (hcur : st.history.getD st.historyIndex [] = st.shapes) :
    (handleClear st).shapes = [] ∧
    (handleClear st).annotations = [] ∧
    (handleClear st).selectedShapeId = none ∧
    (handleClear st).history =
      st.history.take (st.historyIndex + 1) ++ [[]] ∧
    (handleUndo (handleClear st)).shapes = st.shapes ∧
    (handleUndo (handleClear st)).annotations = [] ∧
    (handleUndo (handleClear st)).selectedShapeId = none := by
  rcases st with ⟨shs, anns, sel, zm, off, h, i⟩
  simp only [AppState.mk.injEq] at hcur ⊢
  have hidx' : i < h.length := hidx
  have hcur' : h.getD i [] = shs := hcur
  have hlen : (h.take (i + 1)).length = i + 1 := by
    rw [List.length_take]
    omega
  have hC : handleClear ⟨shs, anns, sel, zm, off, h, i⟩ =
      ⟨[], [], none, zm, off, h.take (i + 1) ++ [[]],
        (h.take (i + 1) ++ [[]]).length - 1⟩ := rfl
  have hCidx : ((h.take (i + 1) ++ [[]]).length - 1) = i + 1 := by
    rw [List.length_append, hlen]
    rfl
  have hget : (h.take (i + 1) ++ [[]]).getD i [] = shs := by
    have hlt : i < (h.take (i + 1)).length := by omega
    rw [List.getD_eq_getElem?_getD, List.getElem?_append_left hlt,
      List.getElem?_take_of_lt (Nat.lt_succ_self i),
      ← List.getD_eq_getElem?_getD, hcur']
  rw [hC]
  refine ⟨rfl, rfl, rfl, rfl, ?_, ?_, ?_⟩ <;>
  · unfold handleUndo
    simp only [hCidx]
    simp only [List.getD_eq_getElem?_getD] at hget
    simp [hget]

/-- A concrete shape for the C10 witness. -/
def clearShapeA : Shape :=
  { id := 4, type := .rectangle, points := [⟨0, 0⟩, ⟨2, 2⟩],
    color := "#3B82F6", strokeWidth := 2 }

/-- A concrete pre-clear state for the C10 witness: one committed shape, one
annotation, a live selection. -/
def clearState0 : AppState :=
  { shapes := [clearShapeA], annotations := [⟨9, 1, 2, "note"⟩],
    selectedShapeId := some 4, zoom := 1, offset := ⟨100, 100⟩,
    history := [[], [clearShapeA]], historyIndex := 1 }

/-- Witness for C10 at the concrete state `clearState0`. -/
theorem clear_undo_restores_only_shapes_witness :
    (handleClear clearState0).shapes = [] ∧
    (handleClear clearState0).annotations = [] ∧
    (handleClear clearState0).selectedShapeId = none ∧
    (handleClear clearState0).history =
      clearState0.history.take (clearState0.historyIndex + 1) ++ [[]] ∧
    (handleUndo (handleClear clearState0)).shapes = clearState0.shapes ∧
    (handleUndo (handleClear clearState0)).annotations = [] ∧
    (handleUndo (handleClear clearState0)).selectedShapeId = none :=
  clear_undo_restores_only_shapes clearState0 (by decide) rfl
